import Mathlib

/-!
Shallow embedding of the ingestion-normalization pipeline and the
aggregation/query engine of the personal-finance dashboard
(src/utils/formatters.js, src/utils/calculations.js, src/app.js,
src/components/FilterBar.js).

Modelling conventions:
- JS numbers are embedded as rationals; no claim here depends on
  floating-point rounding.
- A spreadsheet row is a list of optional cells; a missing entry
  (JS undefined, array holes, out-of-range index) is an empty option.
- JS strings are Lean strings; toLowerCase and trim are modelled by
  ASCII character-list maps (jsToLower, jsTrim), which agree with JS on
  the alias and keyword strings the code compares against.
-/

namespace FinDash

/-- JS substring search s.includes(pat): true when pat occurs in s
(the empty pattern always occurs). Helper on character lists: does the
pattern list occur as a prefix of the character list. -/
def hasPrefixL : List Char → List Char → Bool
  | [], _ => true
  | _ :: _, [] => false
  | p :: ps, c :: cs => p = c && hasPrefixL ps cs

/-- Does the pattern occur anywhere in the character list. -/
def inclAux (ps : List Char) : List Char → Bool
  | [] => hasPrefixL ps []
  | c :: cs => hasPrefixL ps (c :: cs) || inclAux ps cs

/-- JS String.prototype.includes. -/
def strIncludes (s pat : String) : Bool := inclAux pat.toList s.toList

/-- JS toLowerCase, on the ASCII range the code compares against. -/
def jsToLower (s : String) : String := String.mk (s.toList.map Char.toLower)

/-- JS String.prototype.trim (ASCII whitespace). -/
def jsTrim (s : String) : String :=
  String.mk (((s.toList.dropWhile Char.isWhitespace).reverse.dropWhile
    Char.isWhitespace).reverse)

/-- JS String.prototype.split on a one-character separator. -/
def splitOnChar (sep : Char) : List Char → List (List Char)
  | [] => [[]]
  | c :: rest =>
    let r := splitOnChar sep rest
    if c = sep then [] :: r
    else
      match r with
      | [] => [[c]]
      | g :: gs => (c :: g) :: gs

/-- Calendar date as produced by the JS Date object (year/month/day;
month 1-based; time-of-day is not significant for this system). -/
structure JsDate where
  year : Int
  month : Int
  day : Int
deriving DecidableEq, Repr

/-- Gregorian leap-year rule. -/
def isLeapYear (y : Int) : Bool := (y % 4 == 0 && y % 100 != 0) || y % 400 == 0

/-- Number of days in a month of a given year. -/
def daysInMonth (y m : Int) : Int :=
  if m = 2 then (if isLeapYear y then 29 else 28)
  else if m = 4 ∨ m = 6 ∨ m = 9 ∨ m = 11 then 30
  else 31

/-- Days since 1970-01-01 of a civil date with month in 1..12
(standard civil-calendar conversion; day may be out of range, it is
linear in the formula, which is how JS Date day rollover works). -/
def daysFromCivil (y m d : Int) : Int :=
  let y1 := if m ≤ 2 then y - 1 else y
  let era := y1.fdiv 400
  let yoe := y1 - era * 400
  let mp := if m > 2 then m - 3 else m + 9
  let doy := (153 * mp + 2).fdiv 5 + d - 1
  let doe := yoe * 365 + yoe.fdiv 4 - yoe.fdiv 100 + doy
  era * 146097 + doe - 719468

/-- Civil date from days since 1970-01-01 (inverse of daysFromCivil). -/
def civilFromDays (z0 : Int) : JsDate :=
  let z := z0 + 719468
  let era := z.fdiv 146097
  let doe := z - era * 146097
  let yoe := (doe - doe.fdiv 1460 + doe.fdiv 36524 - doe.fdiv 146096).fdiv 365
  let y := yoe + era * 400
  let doy := doe - (365 * yoe + yoe.fdiv 4 - yoe.fdiv 100)
  let mp := (5 * doy + 2).fdiv 153
  let d := doy - (153 * mp + 2).fdiv 5 + 1
  let m := if mp < 10 then mp + 3 else mp - 9
  ⟨if m ≤ 2 then y + 1 else y, m, d⟩

/-- The JS Date(year, monthIndex, day) constructor: years 0..99 shift to
1900..1999, month index rolls over into the year, day rolls over into
the month; dates more than 1e8 days from the epoch are Invalid Date
(the 8.64e15 millisecond bound), yielding none. -/
def jsMkDate (year0 monthIndex day : Int) : Option JsDate :=
  let y1 := if 0 ≤ year0 ∧ year0 ≤ 99 then year0 + 1900 else year0
  let y2 := y1 + monthIndex.fdiv 12
  let m := monthIndex.emod 12 + 1
  let z := daysFromCivil y2 m 1 + (day - 1)
  if z < -100000000 ∨ 100000000 < z then none else some (civilFromDays z)

/-- Numeric value of a digit character list (most significant first). -/
def digitsToInt (cs : List Char) : Int :=
  cs.foldl (fun acc c => acc * 10 + (c.toNat - 48)) 0

/-- A regex digit group \d{lo,hi}: all characters are digits and the
length is within bounds; yields its numeric value (JS parseInt). -/
def numGroup (cs : List Char) (lo hi : Nat) : Option Int :=
  if lo ≤ cs.length ∧ cs.length ≤ hi ∧ cs.all Char.isDigit then
    some (digitsToInt cs)
  else none

/-- One positional fallback pattern of parseDate: three digit groups
joined by sep, with the 4-digit year either last (MM sep DD sep YYYY)
or first (YYYY sep MM sep DD); a match builds the date through the JS
Date constructor with the month converted to a 0-based index. -/
def tryPattern (s : String) (sep : Char) (yearFirst : Bool) : Option JsDate :=
  match splitOnChar sep s.toList with
  | [a, b, c] =>
    if yearFirst then
      match numGroup a 4 4, numGroup b 1 2, numGroup c 1 2 with
      | some y, some mo, some dy => jsMkDate y (mo - 1) dy
      | _, _, _ => none
    else
      match numGroup a 1 2, numGroup b 1 2, numGroup c 4 4 with
      | some mo, some dy, some y => jsMkDate y (mo - 1) dy
      | _, _, _ => none
  | _ => none

/-- Direct parse of new Date(string) on the ECMA-262 date-only ISO form
YYYY-MM-DD: exact digit counts and in-range month and day; other
implementation-defined direct-parse formats are covered by the
positional fallbacks below, which produce the same dates for the
slash/dash layouts this pipeline accepts. -/
def parseIsoDate (s : String) : Option JsDate :=
  match s.toList with
  | [y1, y2, y3, y4, '-', m1, m2, '-', d1, d2] =>
    if [y1, y2, y3, y4, m1, m2, d1, d2].all Char.isDigit then
      let y := digitsToInt [y1, y2, y3, y4]
      let m := digitsToInt [m1, m2]
      let d := digitsToInt [d1, d2]
      if 1 ≤ m ∧ m ≤ 12 ∧ 1 ≤ d ∧ d ≤ daysInMonth y m then some ⟨y, m, d⟩
      else none
    else none
  | _ => none

/-- parseDate from formatters.js: empty string is falsy and yields null;
otherwise direct parse first, then the four positional patterns
MM/DD/YYYY, MM-DD-YYYY, YYYY/MM/DD, YYYY-MM-DD in that order, first
success wins. -/
def parseDate (s : String) : Option JsDate :=
  if s = "" then none
  else match parseIsoDate s with
    | some d => some d
    | none =>
      match tryPattern s '/' false with
      | some d => some d
      | none =>
        match tryPattern s '-' false with
        | some d => some d
        | none =>
          match tryPattern s '/' true with
          | some d => some d
          | none => tryPattern s '-' true

/-- A spreadsheet cell as decoded by the sheet reader: text, number, or
native date. A missing cell (JS undefined) is represented as none at
the row level. -/
inductive Cell where
  | str (s : String)
  | num (q : Rat)
  | date (d : JsDate)
deriving DecidableEq, Repr

/-- A raw row: list of optional cells; indices beyond the length and
holes are undefined. -/
abbrev Row := List (Option Cell)

/-- JS String(v) on a cell value. Integral numbers print as in JS;
non-integral rationals are rendered as num/den (JS prints a decimal
expansion; no claim inspects the stringification of a non-integral
number). Dates render in an ISO-like form (JS uses a locale long form;
no claim inspects the stringification of a date cell). -/
def cellToString : Cell → String
  | .str s => s
  | .num q => if q.den = 1 then toString q.num else toString q.num ++ "/" ++ toString q.den
  | .date d => toString d.year ++ "-" ++ toString d.month ++ "-" ++ toString d.day

/-- JS truthiness of a cell for the h || fallback pattern: undefined,
the empty string and the number 0 are falsy. -/
def cellFalsy : Option Cell → Bool
  | none => true
  | some (.str s) => s = ""
  | some (.num q) => q = 0
  | some (.date _) => false

/-- row[i] in JS: the entry when the integer index is in range,
undefined otherwise. -/
def getCell (row : Row) (i : Int) : Option Cell :=
  if 0 ≤ i then (row.getD i.toNat none) else none

/-! COLUMN_MAPPINGS from formatters.js: ordered alias lists per
canonical field; the object-entry iteration order is date, description,
category, amount, type. -/

def dateAliases : List String := ["date", "transaction date", "trans date", "posting date"]

def descriptionAliases : List String :=
  ["description", "desc", "memo", "narrative", "details", "transaction"]

def categoryAliases : List String := ["category", "type", "transaction type", "group"]

def amountAliases : List String := ["amount", "value", "sum", "total", "debit", "credit"]

def typeAliases : List String := ["income/expense", "transaction kind", "in/out", "direction"]

/-- ColumnMap: canonical field to zero-based column index, sentinel -1
when unmapped. -/
structure ColumnMap where
  date : Int
  description : Int
  category : Int
  amount : Int
  type : Int
deriving DecidableEq, Repr

/-- Does the lower-cased header contain one of the field's aliases
(aliases.some with includes). -/
def fieldMatches (aliases : List String) (lowerHeader : String) : Bool :=
  aliases.any (fun a => strIncludes lowerHeader a)

/-- Processing of one header in mapColumns: each field in iteration
order (date, description, category, amount, type) is updated to this
column index when an alias matches and the field is still unmapped.
The loop body has no break, and each field's update reads and writes
only that field, so the sequential JS loop equals this simultaneous
update; one header can be recorded under several fields. -/
def stepHeader (m : ColumnMap) (idx : Int) (header : String) : ColumnMap :=
  let lh := jsToLower header
  { date := if fieldMatches dateAliases lh ∧ m.date = -1 then idx else m.date
    description :=
      if fieldMatches descriptionAliases lh ∧ m.description = -1 then idx else m.description
    category := if fieldMatches categoryAliases lh ∧ m.category = -1 then idx else m.category
    amount := if fieldMatches amountAliases lh ∧ m.amount = -1 then idx else m.amount
    type := if fieldMatches typeAliases lh ∧ m.type = -1 then idx else m.type }

/-- Left-to-right scan over the headers with the running column index. -/
def mapColumnsAux (m : ColumnMap) (idx : Int) : List String → ColumnMap
  | [] => m
  | h :: rest => mapColumnsAux (stepHeader m idx h) (idx + 1) rest

/-- mapColumns from formatters.js. -/
def mapColumns (headers : List String) : ColumnMap :=
  mapColumnsAux ⟨-1, -1, -1, -1, -1⟩ 0 headers

/-! Amount parsing: the cell string is cleaned to the characters
0-9 . - + and handed to parseFloat; NaN (no numeric prefix) becomes 0
through the || 0 fallback, which is also the identity on every other
value parseFloat can produce here (and maps a JS negative zero to 0,
which the rational 0 already is). -/

/-- The replace(/[^0-9.\-+]/g, '') cleaning step. -/
def cleanAmount (s : String) : String :=
  String.mk (s.toList.filter (fun c => c.isDigit || c = '.' || c = '-' || c = '+'))

/-- Value of a digit list read as the fractional part after the point. -/
def fracToRat (cs : List Char) : Rat :=
  (digitsToInt cs : Rat) / ((10 : Rat) ^ cs.length)

/-- JS parseFloat on a cleaned string (alphabet 0-9 . - +, hence no
exponent part): longest prefix of the form sign? digits* (. digits*)?
with at least one digit; anything else is NaN, mapped to 0 by the
caller's || 0. -/
def parseFloatCleaned (s : String) : Rat :=
  let cs := s.toList
  let signRest : Rat × List Char :=
    match cs with
    | '-' :: t => (-1, t)
    | '+' :: t => (1, t)
    | t => (1, t)
  let intPart := signRest.2.takeWhile Char.isDigit
  let rest2 := signRest.2.dropWhile Char.isDigit
  let fracPart :=
    match rest2 with
    | '.' :: t => t.takeWhile Char.isDigit
    | _ => []
  if intPart.isEmpty ∧ fracPart.isEmpty then 0
  else signRest.1 * ((digitsToInt intPart : Rat) + fracToRat fracPart)

/-- The canonical transaction record; the parser leaves id 0 and the
sheet pass assigns the 1-based row index. The type field is a string
because the aggregation layer treats it as one. -/
structure TransactionRecord where
  id : Int
  date : JsDate
  description : String
  category : String
  amount : Rat
  type : String
deriving DecidableEq, Repr

/-- Date extraction in parseRow: a native date cell is used as is,
any other present cell is stringified and given to parseDate. A
sentinel -1 index reads as undefined, like in JS where row[-1] is
undefined, so the explicit columnMap.date !== -1 guard is absorbed. -/
def getDateField (row : Row) (cm : ColumnMap) : Option JsDate :=
  match getCell row cm.date with
  | none => none
  | some (.date d) => some d
  | some c => parseDate (cellToString c)

/-- Amount extraction in parseRow: numeric cells pass through with
their sign; other present cells are stringified, cleaned and parsed;
missing cells leave the initial 0. -/
def getAmount (row : Row) (cm : ColumnMap) : Rat :=
  match getCell row cm.amount with
  | none => 0
  | some (.num q) => q
  | some c => parseFloatCleaned (cleanAmount (cellToString c))

/-- Type determination in parseRow: when the type cell is present its
lower-cased string decides (Income on an income / in / credit
substring), otherwise the sign of the raw amount decides. -/
def getType (row : Row) (cm : ColumnMap) (amount : Rat) : String :=
  match getCell row cm.type with
  | some c =>
      let tv := jsToLower (cellToString c)
      if strIncludes tv "income" || strIncludes tv "in" || strIncludes tv "credit" then "Income"
      else "Expense"
  | none => if amount > 0 then "Income" else "Expense"

/-- parseRow from formatters.js: reject when no date is obtained,
reject when the parsed amount is exactly 0, otherwise build the record
with the absolute amount. -/
def parseRow (row : Row) (cm : ColumnMap) : Option TransactionRecord :=
  match getDateField row cm with
  | none => none
  | some date =>
    let description :=
      match getCell row cm.description with
      | none => ""
      | some c => jsTrim (cellToString c)
    let category :=
      match getCell row cm.category with
      | none => "Uncategorized"
      | some c =>
        let s := jsTrim (cellToString c)
        if s = "" then "Uncategorized" else s
    let amount := getAmount row cm
    if amount = 0 then none
    else some { id := 0, date := date, description := description, category := category,
                amount := |amount|, type := getType row cm amount }

/-- Header normalization in parseSheetData: String(h || '') then
toLowerCase and trim. -/
def headerString (oc : Option Cell) : String :=
  match oc with
  | none => ""
  | some c => if cellFalsy (some c) then "" else jsTrim (jsToLower (cellToString c))

/-- parseSheetData from formatters.js: map the header row, then walk
the data rows; empty rows are skipped, accepted rows get the 1-based
sheet row index as id. -/
def parseSheetData (rawData : List Row) : List TransactionRecord :=
  let headers := (rawData.headD []).map headerString
  let cm := mapColumns headers
  (rawData.drop 1).enum.foldl
    (fun acc p =>
      if p.2.length = 0 then acc
      else
        match parseRow p.2 cm with
        | some t => acc ++ [{ t with id := ((p.1 + 1 : Nat) : Int) }]
        | none => acc)
    []

/-- The ingestion result surfaced to the caller. -/
structure IngestionResult where
  transactions : List TransactionRecord
  totalRows : Nat
  parsedRows : Nat
deriving DecidableEq, Repr

/-- The fewer-than-2-rows message from parseExcelFile. -/
def emptySheetMsg : String := "File appears to be empty or has no data rows"

/-- The zero-valid-transactions message from handleFile. -/
def noValidMsg : String :=
  "No valid transactions found in the file. Please check the file format."

/-- The fatal path of ingestion: parseExcelFile rejects a sheet with
fewer than 2 rows; handleFile then rejects a parse result with zero
transactions. Success carries records plus the row counts. -/
def ingestPipeline (rawData : List Row) : Except String IngestionResult :=
  if rawData.length < 2 then .error emptySheetMsg
  else
    let ts := parseSheetData rawData
    if ts.length = 0 then .error noValidMsg
    else .ok ⟨ts, rawData.length - 1, ts.length⟩

/-- getSampleTemplateData from formatters.js. -/
def getSampleTemplateData : List Row :=
  [ [some (.str "Date"), some (.str "Description"), some (.str "Category"),
     some (.str "Amount"), some (.str "Type")],
    [some (.str "2026-01-01"), some (.str "Monthly Salary"), some (.str "Salary"),
     some (.num 5000), some (.str "Income")],
    [some (.str "2026-01-02"), some (.str "Grocery Store"), some (.str "Food & Dining"),
     some (.num (-150)), some (.str "Expense")],
    [some (.str "2026-01-03"), some (.str "Electric Bill"), some (.str "Utilities"),
     some (.num (-120)), some (.str "Expense")],
    [some (.str "2026-01-05"), some (.str "Freelance Project"), some (.str "Side Income"),
     some (.num 800), some (.str "Income")],
    [some (.str "2026-01-07"), some (.str "Restaurant Dinner"), some (.str "Food & Dining"),
     some (.num (-65)), some (.str "Expense")],
    [some (.str "2026-01-10"), some (.str "Gas Station"), some (.str "Transportation"),
     some (.num (-45)), some (.str "Expense")],
    [some (.str "2026-01-12"), some (.str "Online Shopping"), some (.str "Shopping"),
     some (.num (-200)), some (.str "Expense")],
    [some (.str "2026-01-15"), some (.str "Gym Membership"), some (.str "Health & Fitness"),
     some (.num (-50)), some (.str "Expense")] ]

/-! The aggregation engine (calculations.js). Records reach it from any
source, so type and category are arbitrary strings here. -/

/-- calculateTotalIncome: sum of absolute amounts over records whose
type is literally income or Income. -/
def calculateTotalIncome (ts : List TransactionRecord) : Rat :=
  (ts.filter (fun t => t.type == "income" || t.type == "Income")).foldl
    (fun s t => s + |t.amount|) 0

/-- calculateTotalExpenses: sum of absolute amounts over records whose
type is literally expense or Expense. -/
def calculateTotalExpenses (ts : List TransactionRecord) : Rat :=
  (ts.filter (fun t => t.type == "expense" || t.type == "Expense")).foldl
    (fun s t => s + |t.amount|) 0

/-- calculateBalance: income minus expenses. -/
def calculateBalance (ts : List TransactionRecord) : Rat :=
  calculateTotalIncome ts - calculateTotalExpenses ts

/-- calculateSavingsRate: 0 on zero income, otherwise the clamped
balance-to-income ratio. -/
def calculateSavingsRate (ts : List TransactionRecord) : Rat :=
  let income := calculateTotalIncome ts
  if income = 0 then 0
  else max 0 (calculateBalance ts / income)

/-- One monthly bucket of calculateByMonth. -/
structure MonthTotal where
  month : String
  income : Rat
  expenses : Rat
deriving DecidableEq, Repr

/-- String(n).padStart(2, '0'). -/
def pad2 (s : String) : String := if s.length < 2 then "0" ++ s else s

/-- The YYYY-MM group key of calculateByMonth (year as printed, month
1-based zero-padded to two digits). -/
def monthKey (d : JsDate) : String := toString d.year ++ "-" ++ pad2 (toString d.month)

/-- Accumulate one record into its bucket: lower-cased type income adds
to income, anything else to expenses. -/
def addToMonth (t : TransactionRecord) (mt : MonthTotal) : MonthTotal :=
  if jsToLower t.type == "income" then { mt with income := mt.income + |t.amount| }
  else { mt with expenses := mt.expenses + |t.amount| }

/-- One step of the grouping pass; JS object keys of this shape keep
insertion order, modelled by an association list extended at the end. -/
def updMonthly (acc : List MonthTotal) (t : TransactionRecord) : List MonthTotal :=
  let k := monthKey t.date
  if acc.any (fun mt => mt.month == k) then
    acc.map (fun mt => if mt.month == k then addToMonth t mt else mt)
  else acc ++ [addToMonth t ⟨k, 0, 0⟩]

/-- The sort comparator of calculateByMonth: localeCompare on the month
keys, which on these digit-and-dash keys orders like the plain string
order. -/
def monthLe (a b : MonthTotal) : Prop := a.month ≤ b.month

instance : DecidableRel monthLe := fun a b => inferInstanceAs (Decidable (a.month ≤ b.month))

instance : IsTotal MonthTotal monthLe := ⟨fun a b => le_total a.month b.month⟩

instance : IsTrans MonthTotal monthLe := ⟨fun _ _ _ h1 h2 => le_trans h1 h2⟩

/-- calculateByMonth: group, then sort by the month key; a stable
comparison sort in JS, modelled by the stable insertion sort. -/
def calculateByMonth (ts : List TransactionRecord) : List MonthTotal :=
  List.insertionSort monthLe (ts.foldl updMonthly [])

/-- Date ordering used by the date-range filter; record dates are
calendar dates, compared as JS compares their time values. -/
def dateLe (a b : JsDate) : Bool :=
  a.year < b.year ||
    (a.year == b.year && (a.month < b.month || (a.month == b.month && a.day ≤ b.day)))

/-- filterByDateRange: inclusive on both ends. -/
def filterByDateRange (ts : List TransactionRecord) (startDate endDate : JsDate) :
    List TransactionRecord :=
  ts.filter (fun t => dateLe startDate t.date && dateLe t.date endDate)

/-- filterByCategory: passthrough on a falsy or all category. -/
def filterByCategory (ts : List TransactionRecord) (category : String) :
    List TransactionRecord :=
  if category = "" ∨ category = "all" then ts
  else ts.filter (fun t => t.category == category)

/-- filterByType: passthrough on a falsy or all type, otherwise
case-insensitive equality. -/
def filterByType (ts : List TransactionRecord) (ty : String) : List TransactionRecord :=
  if ty = "" ∨ ty = "all" then ts
  else ts.filter (fun t => jsToLower t.type == jsToLower ty)

/-- searchTransactions: passthrough on an empty query, otherwise
case-insensitive substring match on description or category. -/
def searchTransactions (ts : List TransactionRecord) (query : String) :
    List TransactionRecord :=
  if query = "" then ts
  else
    let lq := jsToLower query
    ts.filter (fun t =>
      strIncludes (jsToLower t.description) lq || strIncludes (jsToLower t.category) lq)

/-- The filter state of app.js. The date bounds arrive as date input
strings; absence (empty string, JS falsy) is none here. -/
structure Filters where
  search : String
  category : String
  type : String
  dateFrom : Option JsDate
  dateTo : Option JsDate
deriving DecidableEq, Repr

/-- new Date(0). -/
def epochDate : JsDate := ⟨1970, 1, 1⟩

/-- new Date(8640000000000000), the largest representable JS time. -/
def maxTimeDate : JsDate := civilFromDays 100000000

/-- applyFilters from app.js: each stage runs only when its criterion
is set (truthy and not all); the date stage runs when either bound is
set, substituting the epoch and the maximal time for missing bounds. -/
def applyFilters (f : Filters) (ts : List TransactionRecord) : List TransactionRecord :=
  let t1 := if f.search ≠ "" then searchTransactions ts f.search else ts
  let t2 := if f.category ≠ "" ∧ f.category ≠ "all" then filterByCategory t1 f.category else t1
  let t3 := if f.type ≠ "" ∧ f.type ≠ "all" then filterByType t2 f.type else t2
  if f.dateFrom.isSome ∨ f.dateTo.isSome then
    filterByDateRange t3 (f.dateFrom.getD epochDate) (f.dateTo.getD maxTimeDate)
  else t3

/-! Concrete inputs used by witnesses and counterexamples. -/

/-- A record whose type is spelled in upper case. -/
def recUpperIncome : TransactionRecord :=
  ⟨1, ⟨2026, 1, 1⟩, "Salary", "Salary", 5, "INCOME"⟩

/-- A plain income record. -/
def recIncome1000 : TransactionRecord :=
  ⟨1, ⟨2026, 1, 1⟩, "Salary", "Salary", 1000, "Income"⟩

/-- A plain expense record. -/
def recExpense400 : TransactionRecord :=
  ⟨2, ⟨2026, 1, 2⟩, "Rent", "Housing", 400, "Expense"⟩

/-- A column map with a type column mapped at index 2. -/
def cmWithType : ColumnMap := ⟨0, -1, -1, 1, 2⟩

/-- A row whose type cell is missing although the type column is
mapped: only indices 0 and 1 are present. -/
def rowMissingTypeCell : Row := [some (.str "2026-01-02"), some (.num 5)]

/-- A row with a present type cell reading Expense. -/
def rowWithTypeCell : Row := [some (.str "2026-01-02"), some (.num 5), some (.str "Expense")]

/-- The record parseRow produces from rowWithTypeCell under cmWithType. -/
def recWithTypeCell : TransactionRecord := ⟨0, ⟨2026, 1, 2⟩, "", "Uncategorized", 5, "Expense"⟩

/-- A column map with date and amount only. -/
def cmDateAmount : ColumnMap := ⟨0, -1, -1, 1, -1⟩

/-- A valid row with a negative numeric amount. -/
def rowNeg150 : Row := [some (.str "2026-01-02"), some (.num (-150))]

/-- The record parseRow produces from rowNeg150 under cmDateAmount. -/
def recNeg150 : TransactionRecord := ⟨0, ⟨2026, 1, 2⟩, "", "Uncategorized", 150, "Expense"⟩

/-- A row whose amount cell parses to 0. -/
def rowZeroAmount : Row := [some (.str "2026-01-02"), some (.str "n/a")]

/-- A two-row sheet whose single data row has an unparseable date, so
no valid transaction survives normalization. -/
def sheetNoValid : List Row :=
  [ [some (.str "Date"), some (.str "Amount")],
    [some (.str "notadate"), some (.num 5)] ]

/-- A record whose type is spelled EXPENSE. -/
def recUpperExpense : TransactionRecord :=
  ⟨1, ⟨2026, 1, 1⟩, "Rent", "Housing", 5, "EXPENSE"⟩

/-- A one-row sheet (header only). -/
def sheetHeaderOnly : List Row := [[some (.str "Date"), some (.str "Amount")]]

/-- The lower-cased, trimmed header strings of the sample template. -/
def templateHeaders : List String := (getSampleTemplateData.headD []).map headerString

/-- The grocery data row of the sample template. -/
def templateRow2 : Row :=
  [some (.str "2026-01-02"), some (.str "Grocery Store"), some (.str "Food & Dining"),
   some (.num (-150)), some (.str "Expense")]

/-- The record parseRow produces from templateRow2 under the template
column map. -/
def recGrocery : TransactionRecord :=
  ⟨0, ⟨2026, 1, 2⟩, "Grocery Store", "Food & Dining", 150, "Expense"⟩

/-- Index of the first header whose lower-cased text matches one of the
aliases. -/
def firstMatchAux (aliases : List String) : List String → Option Nat
  | [] => none
  | h :: rest =>
    if fieldMatches aliases (jsToLower h) then some 0
    else (firstMatchAux aliases rest).map (· + 1)

/-- The column a field ends up with, phrased directly: the first
matching header's index, sentinel -1 when no header matches. -/
def firstMatchIdx (aliases headers : List String) : Int :=
  match firstMatchAux aliases headers with
  | some i => (i : Int)
  | none => -1

/-- The per-field trace of the mapColumns scan: one field's running
value through the left-to-right header walk. -/
def foldField (aliases : List String) (cur idx : Int) : List String → Int
  | [] => cur
  | h :: rest =>
    foldField aliases
      (if fieldMatches aliases (jsToLower h) ∧ cur = -1 then idx else cur) (idx + 1) rest

/-! Helper lemmas shared between the claim theorems. -/

/-- Shifting the accumulator out of a sum-fold. -/
theorem foldl_add_shift (g : TransactionRecord → Rat) :
    ∀ (l : List TransactionRecord) (a : Rat),
      l.foldl (fun s t => s + g t) a = a + l.foldl (fun s t => s + g t) 0 := by
  intro l
  induction l with
  | nil => intro a; simp
  | cons x xs ih =>
    intro a
    simp only [List.foldl_cons]
    rw [ih (a + g x), ih (0 + g x)]
    ring

/-- The record built by parseRow carries getType of the raw amount. -/
theorem parseRow_type_eq (row : Row) (cm : ColumnMap) (t : TransactionRecord)
    (h : parseRow row cm = some t) : t.type = getType row cm (getAmount row cm) := by
  unfold parseRow at h
  rcases hd : getDateField row cm with _ | d
  · rw [hd] at h; exact absurd h (by simp)
  · rw [hd] at h
    simp only at h
    by_cases hz : getAmount row cm = 0
    · rw [if_pos hz] at h; exact absurd h (by simp)
    · rw [if_neg hz] at h
      cases h
      rfl

/-- The record built by parseRow carries the absolute raw amount, and
the raw amount is nonzero. -/
theorem parseRow_amount_eq (row : Row) (cm : ColumnMap) (t : TransactionRecord)
    (h : parseRow row cm = some t) :
    t.amount = |getAmount row cm| ∧ getAmount row cm ≠ 0 := by
  unfold parseRow at h
  rcases hd : getDateField row cm with _ | d
  · rw [hd] at h; exact absurd h (by simp)
  · rw [hd] at h
    simp only at h
    by_cases hz : getAmount row cm = 0
    · rw [if_pos hz] at h; exact absurd h (by simp)
    · rw [if_neg hz] at h
      cases h
      exact ⟨rfl, hz⟩

/-- A negative index reads as undefined. -/
theorem getCell_neg (row : Row) (i : Int) (h : i < 0) : getCell row i = none := by
  unfold getCell
  rw [if_neg (by omega)]

/-- If the amount is parsed to zero, the row is rejected. -/
theorem parseRow_zero_amount (row : Row) (cm : ColumnMap)
    (h : getAmount row cm = 0) : parseRow row cm = none := by
  unfold parseRow
  rcases hd : getDateField row cm with _ | d
  · rfl
  · simp [h]

/-- getType falls back to the sign of the amount when the type cell is
absent. -/
theorem getType_none (row : Row) (cm : ColumnMap) (a : Rat)
    (h : getCell row cm.type = none) :
    getType row cm a = if a > 0 then "Income" else "Expense" := by
  unfold getType
  rw [h]

/-- getType follows the cell text when the type cell is present. -/
theorem getType_some (row : Row) (cm : ColumnMap) (a : Rat) (c : Cell)
    (h : getCell row cm.type = some c) :
    getType row cm a =
      (if strIncludes (jsToLower (cellToString c)) "income" ||
          strIncludes (jsToLower (cellToString c)) "in" ||
          strIncludes (jsToLower (cellToString c)) "credit"
       then "Income" else "Expense") := by
  unfold getType
  rw [h]

/-- A field whose running value is already set never changes. -/
theorem foldField_stable (aliases : List String) :
    ∀ (hs : List String) (cur idx : Int), cur ≠ -1 → foldField aliases cur idx hs = cur := by
  intro hs
  induction hs with
  | nil => intro cur idx _; rfl
  | cons hd tl ih =>
    intro cur idx h
    rw [foldField, if_neg (by tauto)]
    exact ih cur (idx + 1) h

/-- An unset field picks up the first matching header, offset by the
running index. -/
theorem foldField_unset (aliases : List String) :
    ∀ (hs : List String) (idx : Int), 0 ≤ idx →
      foldField aliases (-1) idx hs =
        (match firstMatchAux aliases hs with
         | some i => idx + (i : Int)
         | none => -1) := by
  intro hs
  induction hs with
  | nil => intro idx _; rfl
  | cons hd tl ih =>
    intro idx hidx
    rw [foldField, firstMatchAux]
    by_cases hm : fieldMatches aliases (jsToLower hd) = true
    · rw [if_pos ⟨hm, rfl⟩, if_pos hm]
      rw [foldField_stable aliases tl idx (idx + 1) (by omega)]
      simp
    · rw [if_neg (by tauto), if_neg hm, ih (idx + 1) (by omega)]
      cases hfa : firstMatchAux aliases tl with
      | none => simp
      | some i =>
        simp
        ring

/-- The mapColumns scan decomposes into five independent per-field
scans. -/
theorem mapColumnsAux_fields :
    ∀ (hs : List String) (m : ColumnMap) (idx : Int),
      mapColumnsAux m idx hs =
        ⟨foldField dateAliases m.date idx hs,
         foldField descriptionAliases m.description idx hs,
         foldField categoryAliases m.category idx hs,
         foldField amountAliases m.amount idx hs,
         foldField typeAliases m.type idx hs⟩ := by
  intro hs
  induction hs with
  | nil => intro m idx; rfl
  | cons h rest ih =>
    intro m idx
    rw [mapColumnsAux, ih (stepHeader m idx h) (idx + 1)]
    rfl

/-- C7: for every record list, including the empty list, totalIncome
minus totalExpenses equals balance, and the balance of the empty list
is 0. -/
theorem c7_balance_relation :
    (∀ ts : List TransactionRecord,
      calculateTotalIncome ts - calculateTotalExpenses ts = calculateBalance ts) ∧
    calculateBalance [] = 0 := by
  exact ⟨fun ts => rfl,
    by simp [calculateBalance, calculateTotalIncome, calculateTotalExpenses]⟩

/-- C6: savingsRate is 0 when totalIncome is 0 (in particular on the
empty list), equals max 0 (balance / totalIncome) when totalIncome is
nonzero, and is never negative. -/
theorem c6_savings_rate_safe :
    calculateSavingsRate [] = 0 ∧
    ∀ ts : List TransactionRecord,
      0 ≤ calculateSavingsRate ts ∧
      (calculateTotalIncome ts = 0 → calculateSavingsRate ts = 0) ∧
      (calculateTotalIncome ts ≠ 0 →
        calculateSavingsRate ts =
          max 0 (calculateBalance ts / calculateTotalIncome ts)) := by
  constructor
  · decide
  · intro ts
    by_cases h : calculateTotalIncome ts = 0
    · refine ⟨?_, fun _ => ?_, fun hne => absurd h hne⟩ <;>
        simp [calculateSavingsRate, h]
    · refine ⟨?_, fun h0 => absurd h0 h, fun _ => ?_⟩
      · simp only [calculateSavingsRate, if_neg h]
        exact le_max_left 0 _
      · simp [calculateSavingsRate, h]

/-- Witness for C6 at a concrete two-record list with nonzero income. -/
theorem c6_witness :
    calculateTotalIncome [recIncome1000, recExpense400] ≠ 0 ∧
    calculateSavingsRate [recIncome1000, recExpense400] =
      max 0 (calculateBalance [recIncome1000, recExpense400] /
        calculateTotalIncome [recIncome1000, recExpense400]) := by
  have hinc : calculateTotalIncome [recIncome1000, recExpense400] ≠ 0 := by
    simp [calculateTotalIncome, recIncome1000, recExpense400]
  exact ⟨hinc, (c6_savings_rate_safe.2 [recIncome1000, recExpense400]).2.2 hinc⟩

/-- C10: applying the filter pipeline with every criterion at its
all/empty default returns the input list unchanged. -/
theorem c10_default_filters_identity :
    ∀ ts : List TransactionRecord,
      applyFilters ⟨"", "all", "all", none, none⟩ ts = ts := by
  intro ts
  rfl

/-- C5: an accepted row has a non-negative, nonzero amount; a row whose
parsed amount is exactly 0 is rejected, and a missing amount cell, a
blank amount string and an unparseable amount string all parse to 0. -/
theorem c5_amount_positive :
    (∀ row cm t, parseRow row cm = some t → 0 ≤ t.amount ∧ t.amount ≠ 0) ∧
    (∀ row cm, getAmount row cm = 0 → parseRow row cm = none) ∧
    (∀ row cm, getCell row cm.amount = none → getAmount row cm = 0) ∧
    parseFloatCleaned (cleanAmount "") = 0 ∧
    parseFloatCleaned (cleanAmount "n/a") = 0 := by
  refine ⟨?_, fun row cm h => parseRow_zero_amount row cm h, ?_, by decide, by decide⟩
  · intro row cm t h
    obtain ⟨he, hnz⟩ := parseRow_amount_eq row cm t h
    rw [he]
    exact ⟨abs_nonneg _, abs_ne_zero.mpr hnz⟩
  · intro row cm h
    unfold getAmount
    rw [h]

/-- Witness for C5: a concrete accepted row with raw amount -150 has
record amount 150, and a concrete row whose amount text parses to 0 is
rejected. -/
theorem c5_witness :
    (0 ≤ recNeg150.amount ∧ recNeg150.amount ≠ 0) ∧
    parseRow rowZeroAmount cmDateAmount = none :=
  ⟨c5_amount_positive.1 rowNeg150 cmDateAmount recNeg150 (by decide),
   c5_amount_positive.2.1 rowZeroAmount cmDateAmount (by decide)⟩

/-- C3 counterexample: a record whose type lower-cases to income (resp.
expense) but is spelled INCOME (resp. EXPENSE) is excluded from the
corresponding total, so the comparison is not case-insensitive. -/
theorem c3_counterexample :
    jsToLower "INCOME" = "income" ∧ calculateTotalIncome [recUpperIncome] = 0 ∧
    jsToLower "EXPENSE" = "expense" ∧ calculateTotalExpenses [recUpperExpense] = 0 := by
  decide

/-- C3 amended: the aggregation totals compare the type against the
two literal spellings income and Income (resp. expense and Expense);
a record with any other spelling, whatever its lower-casing, is
excluded. -/
theorem c3_amended :
    ∀ (t : TransactionRecord) (ts : List TransactionRecord),
      ((t.type = "income" ∨ t.type = "Income") →
        calculateTotalIncome (t :: ts) = |t.amount| + calculateTotalIncome ts) ∧
      ((t.type ≠ "income" ∧ t.type ≠ "Income") →
        calculateTotalIncome (t :: ts) = calculateTotalIncome ts) ∧
      ((t.type = "expense" ∨ t.type = "Expense") →
        calculateTotalExpenses (t :: ts) = |t.amount| + calculateTotalExpenses ts) ∧
      ((t.type ≠ "expense" ∧ t.type ≠ "Expense") →
        calculateTotalExpenses (t :: ts) = calculateTotalExpenses ts) := by
  intro t ts
  refine ⟨?_, ?_, ?_, ?_⟩
  · intro h
    have hp : (t.type == "income" || t.type == "Income") = true := by
      rcases h with h | h <;> simp [h]
    simp only [calculateTotalIncome, List.filter_cons, hp, if_true, List.foldl_cons]
    rw [foldl_add_shift]
    ring
  · intro h
    have hp : (t.type == "income" || t.type == "Income") = false := by
      simp [h.1, h.2]
    simp [calculateTotalIncome, List.filter_cons, hp]
  · intro h
    have hp : (t.type == "expense" || t.type == "Expense") = true := by
      rcases h with h | h <;> simp [h]
    simp only [calculateTotalExpenses, List.filter_cons, hp, if_true, List.foldl_cons]
    rw [foldl_add_shift]
    ring
  · intro h
    have hp : (t.type == "expense" || t.type == "Expense") = false := by
      simp [h.1, h.2]
    simp [calculateTotalExpenses, List.filter_cons, hp]

/-- Witness for C3 amended: the INCOME record contributes nothing, the
Income record contributes its absolute amount. -/
theorem c3_witness :
    calculateTotalIncome (recUpperIncome :: []) = calculateTotalIncome [] ∧
    calculateTotalIncome (recIncome1000 :: []) =
      |recIncome1000.amount| + calculateTotalIncome [] :=
  ⟨(c3_amended recUpperIncome []).2.1 ⟨by decide, by decide⟩,
   (c3_amended recIncome1000 []).1 (Or.inr (by decide))⟩

/-- C1 counterexample: the single header transaction type matches both
a description alias (transaction) and a category alias (type), and
mapColumns records its column index 0 under both fields, not only
under description, the first matching field in iteration order. -/
theorem c1_counterexample :
    (mapColumns ["transaction type"]).description = 0 ∧
    (mapColumns ["transaction type"]).category = 0 := by
  exact ⟨rfl, rfl⟩

/-- C1 amended: each canonical field independently records the index of
the first header matching its own alias list (sentinel -1 when none),
so a header matching aliases of several fields is recorded under every
such field for which it is that field's first match, not exclusively
under the first field in iteration order. -/
theorem c1_amended :
    ∀ headers : List String,
      mapColumns headers =
        ⟨firstMatchIdx dateAliases headers, firstMatchIdx descriptionAliases headers,
         firstMatchIdx categoryAliases headers, firstMatchIdx amountAliases headers,
         firstMatchIdx typeAliases headers⟩ := by
  intro headers
  rw [mapColumns, mapColumnsAux_fields]
  have hfield : ∀ aliases : List String,
      foldField aliases (-1) 0 headers = firstMatchIdx aliases headers := by
    intro aliases
    rw [foldField_unset aliases headers 0 le_rfl, firstMatchIdx]
    cases firstMatchAux aliases headers <;> simp
  rw [hfield, hfield, hfield, hfield, hfield]

/-- C9: for every record list, the output of calculateByMonth is
sorted ascending by the YYYY-MM month key under the lexicographic
string order (the comparator of the source's sort). -/
theorem c9_byMonth_sorted :
    ∀ ts : List TransactionRecord, List.Sorted monthLe (calculateByMonth ts) := by
  intro ts
  exact List.sorted_insertionSort monthLe (ts.foldl updMonthly [])

/-- C2 counterexample: with a type column mapped at index 2 but the
type cell missing from the row, parseRow still derives the type from
the sign of the amount (positive 5 gives Income), so sign inference is
not restricted to an unmapped type column. -/
theorem c2_counterexample :
    cmWithType.type = 2 ∧
    getCell rowMissingTypeCell cmWithType.type = none ∧
    parseRow rowMissingTypeCell cmWithType =
      some ⟨0, ⟨2026, 1, 2⟩, "", "Uncategorized", 5, "Income"⟩ := by
  exact ⟨rfl, rfl, by decide⟩

/-- C2 amended: the type of an accepted record is always Income or
Expense; it is derived from the sign of the raw amount exactly when
the type cell is absent (type column unmapped, or the mapped cell
missing from the row), and from the cell's lower-cased text (Income on
an income, in or credit substring) exactly when the cell is present. -/
theorem c2_amended :
    ∀ (row : Row) (cm : ColumnMap) (t : TransactionRecord),
      parseRow row cm = some t →
      (t.type = "Income" ∨ t.type = "Expense") ∧
      ((cm.type = -1 ∨ getCell row cm.type = none) →
        t.type = (if getAmount row cm > 0 then "Income" else "Expense")) ∧
      (∀ c, getCell row cm.type = some c →
        t.type =
          (if strIncludes (jsToLower (cellToString c)) "income" ||
              strIncludes (jsToLower (cellToString c)) "in" ||
              strIncludes (jsToLower (cellToString c)) "credit"
           then "Income" else "Expense")) := by
  intro row cm t h
  have ht := parseRow_type_eq row cm t h
  refine ⟨?_, ?_, ?_⟩
  · rw [ht]
    rcases hcell : getCell row cm.type with _ | c
    · rw [getType_none row cm _ hcell]
      by_cases hp : getAmount row cm > 0
      · rw [if_pos hp]; left; rfl
      · rw [if_neg hp]; right; rfl
    · rw [getType_some row cm _ c hcell]
      by_cases hp : (strIncludes (jsToLower (cellToString c)) "income" ||
          strIncludes (jsToLower (cellToString c)) "in" ||
          strIncludes (jsToLower (cellToString c)) "credit") = true
      · rw [if_pos hp]; left; rfl
      · rw [if_neg hp]; right; rfl
  · intro hc
    have hnone : getCell row cm.type = none := by
      rcases hc with hc | hc
      · unfold getCell
        rw [hc, if_neg (by omega)]
      · exact hc
    rw [ht, getType_none row cm _ hnone]
  · intro c hc
    rw [ht, getType_some row cm _ c hc]

/-- Witness for C2 amended: with the type cell present and reading
Expense, the record type follows the cell text. -/
theorem c2_witness :
    recWithTypeCell.type =
      (if strIncludes (jsToLower (cellToString (.str "Expense"))) "income" ||
          strIncludes (jsToLower (cellToString (.str "Expense"))) "in" ||
          strIncludes (jsToLower (cellToString (.str "Expense"))) "credit"
       then "Income" else "Expense") :=
  (c2_amended rowWithTypeCell cmWithType recWithTypeCell (by decide)).2.2
    (.str "Expense") (by decide)

/-- C4: on the sample template header row the column map assigns
columns 0..3 to date, description, category and amount and leaves the
type field at the sentinel -1 (the header type only matches the
category alias list, already taken by the Category column, and no type
alias); consequently every record parsed under this map takes its type
from the sign of the raw amount, and the template's records come out
with the sign-inferred types. -/
theorem c4_template_type_unmapped :
    mapColumns templateHeaders = ⟨0, 1, 2, 3, -1⟩ ∧
    (∀ (row : Row) (t : TransactionRecord),
      parseRow row (mapColumns templateHeaders) = some t →
      t.type = (if getAmount row (mapColumns templateHeaders) > 0 then "Income" else "Expense")) ∧
    (parseSheetData getSampleTemplateData).map (fun t => t.type) =
      ["Income", "Expense", "Expense", "Income", "Expense", "Expense", "Expense", "Expense"] := by
  refine ⟨by decide, ?_, by decide⟩
  intro row t h
  have ht := parseRow_type_eq row (mapColumns templateHeaders) t h
  have hnone : getCell row (mapColumns templateHeaders).type = none := by
    unfold getCell
    rw [show (mapColumns templateHeaders).type = -1 from by decide, if_neg (by omega)]
  rw [ht, getType_none row (mapColumns templateHeaders) _ hnone]

/-- Witness for C4: the grocery template row parses to an Expense
record by the sign rule, even though it carries an explicit Type cell. -/
theorem c4_witness :
    recGrocery.type =
      (if getAmount templateRow2 (mapColumns templateHeaders) > 0
       then "Income" else "Expense") :=
  c4_template_type_unmapped.2.1 templateRow2 recGrocery (by decide)

/-- C8: a sheet with fewer than 2 rows fails with the empty-sheet
message; a sheet with rows but no valid transaction after
normalization fails with the no-valid-transactions message; the two
messages are distinct human-readable strings, and an erroring
ingestion never also returns a result. -/
theorem c8_fatal_conditions :
    (∀ rawData : List Row, rawData.length < 2 →
      ingestPipeline rawData = .error emptySheetMsg) ∧
    (∀ rawData : List Row, 2 ≤ rawData.length → parseSheetData rawData = [] →
      ingestPipeline rawData = .error noValidMsg) ∧
    emptySheetMsg ≠ noValidMsg ∧
    (∀ (rawData : List Row) (e : String) (r : IngestionResult),
      ingestPipeline rawData = .error e → ingestPipeline rawData ≠ .ok r) := by
  refine ⟨?_, ?_, by decide, ?_⟩
  · intro raw h
    unfold ingestPipeline
    rw [if_pos h]
  · intro raw h2 hempty
    unfold ingestPipeline
    rw [if_neg (by omega)]
    simp [hempty]
  · intro raw e r he hok
    rw [he] at hok
    exact Except.noConfusion hok

/-- Witness for C8: a header-only sheet raises the empty-sheet error,
and a two-row sheet whose data row has an unparseable date raises the
no-valid-transactions error. -/
theorem c8_witness :
    ingestPipeline sheetHeaderOnly = .error emptySheetMsg ∧
    ingestPipeline sheetNoValid = .error noValidMsg :=
  ⟨c8_fatal_conditions.1 sheetHeaderOnly (by decide),
   c8_fatal_conditions.2.1 sheetNoValid (by decide) (by decide)⟩

end FinDash
